import Mathlib

/-!
Verification of the asynchronous logging engine in `include/log.h`.

The development contains two embeddings of the same source:

* a sequential API model (`LoggerState`, `Logger.init`, `Logger.log`,
  `Logger.wait`, `Logger.shutdown`) in which each public call of the
  `Logger` class is one atomic function on the engine state; and
* a concurrent small-step model (`Sys`, `step`, `run`) that exposes the
  interleaving of the single consumer thread (`Logger::_processLogQueue`),
  one producer thread executing `Logger::log` calls, and the main thread
  executing `Logger::shutdown`, at the granularity of the source's
  shared-memory accesses and mutex operations.

Pure helpers (`_logLevelToString`, `_extractFilename`, `_formatLogMessage`,
console colour rendering) are embedded directly as functions.
-/

/-- Log levels, from `enum class LogLevel` (log.h lines 34-39):
DBUG, INFO, WARN, EROR, in declaration order. -/
inductive LogLevel where
  | DBUG
  | INFO
  | WARN
  | EROR
deriving DecidableEq, Repr

/-- Underlying integer value of a `LogLevel`, as assigned by the C++ enum
(DBUG = 0, INFO = 1, WARN = 2, EROR = 3). -/
def LogLevel.toNat : LogLevel → Nat
  | .DBUG => 0
  | .INFO => 1
  | .WARN => 2
  | .EROR => 3

/-- The comparison `level >= _eLogLevel` used at log.h line 166: enum class
values compare by their underlying integers. -/
def levelGE (a b : LogLevel) : Bool := decide (b.toNat ≤ a.toNat)

/-- Console colour codes, from `enum class ConsoleColor` (log.h lines 42-52):
DEFAULT = 0, BLACK = 30, and RED..WHITE following BLACK by auto-increment. -/
inductive ConsoleColor where
  | DEFAULT
  | BLACK
  | RED
  | GREEN
  | YELLOW
  | BLUE
  | MAGENTA
  | CYAN
  | WHITE
deriving DecidableEq, Repr

/-- Integer value of a `ConsoleColor`, as assigned by the C++ enum. -/
def ConsoleColor.code : ConsoleColor → Nat
  | .DEFAULT => 0
  | .BLACK => 30
  | .RED => 31
  | .GREEN => 32
  | .YELLOW => 33
  | .BLUE => 34
  | .MAGENTA => 35
  | .CYAN => 36
  | .WHITE => 37

/-- One element of `_LogQueue`: the tuple
`(LogLevel, std::string, const char*, const char*, int)` pushed at
log.h line 168 (level, message, file, function, line). -/
structure LogEntry where
  level : LogLevel
  message : String
  file : String
  func : String
  line : Int
deriving DecidableEq, Repr

/-- Errors that can escape the `Logger` public calls.  `logException` is the
repository's `LogException` (log.h lines 57-75) carrying its message;
`systemError` is the `std::system_error` that `std::thread::join` raises when
the thread is not joinable (second `join` on the same thread). -/
inductive LogError where
  | logException (msg : String)
  | systemError
deriving DecidableEq, Repr

/-- Escape sequence produced by `ConsoleColorSetter`'s constructor
(log.h lines 86-90): `"\033[" << int(color) << "m"`. -/
def ansiEscape (c : ConsoleColor) : String :=
  "\x1b[" ++ toString c.code ++ "m"

/-- Colour chosen by the `switch` on the record's level in
`Logger::_processLogQueue` (log.h lines 337-352): DBUG → GREEN,
INFO → DEFAULT, WARN → YELLOW, EROR → RED. -/
def consoleColorFor : LogLevel → ConsoleColor
  | .DBUG => .GREEN
  | .INFO => .DEFAULT
  | .WARN => .YELLOW
  | .EROR => .RED

/-- Everything written to `std::cout` for one record by
`Logger::_processLogQueue` (log.h lines 336-355).  The two leading resets are
printed by the destructors of the two temporary `ConsoleColorSetter` objects
(one from the `switch`, one from line 354), each of which writes `"\033[0m"`
directly to `std::cout` at the end of its full expression, before line 355
prints the accumulated `coloredMessage` (colour code, then the formatted
line, then the streamed default code). -/
def consoleEmit (level : LogLevel) (logMessage : String) : String :=
  ansiEscape .DEFAULT ++ ansiEscape .DEFAULT ++
    ansiEscape (consoleColorFor level) ++ logMessage ++ ansiEscape .DEFAULT

/-- String form of a level, from `Logger::_logLevelToString`
(log.h lines 225-233).  The C++ `default: return "UNKNOWN"` branch is dead:
the four enum constructors are exhaustive. -/
def _logLevelToString : LogLevel → String
  | .INFO => "INFO"
  | .WARN => "WARN"
  | .EROR => "EROR"
  | .DBUG => "DBUG"

/-- Character test used by `Logger::_extractFilename` (log.h line 306):
a path separator is `'/'` or `'\'`. -/
def isSlash (c : Char) : Bool := c = '/' || c = '\\'

/-- The scanning loop of `Logger::_extractFilename` (log.h lines 302-312):
`filename` is the current candidate (initially the whole path) and `ptr`
walks the path; on each separator the candidate becomes the remainder after
that separator. -/
def extractLoop (filename : List Char) (ptr : List Char) : List Char :=
  match ptr with
  | [] => filename
  | c :: rest => if isSlash c then extractLoop rest rest else extractLoop filename rest

/-- `Logger::_extractFilename` (log.h lines 301-313) on a C string modelled
as a list of characters: run the scan with the whole path as the initial
candidate. -/
def _extractFilename (filePath : List Char) : List Char :=
  extractLoop filePath filePath

/-- Specification-side description of the basename: the longest suffix of
the path containing no separator, i.e. the suffix following the last `'/'`
or `'\'` (the whole path when no separator occurs). -/
def suffixAfterLastSlash (l : List Char) : List Char :=
  (l.reverse.takeWhile (fun c => !isSlash c)).reverse

/-- Decimal rendering padded with `std::setfill('0')` / `std::setw` to the
given width (wider numbers print in full, as in C++). -/
def padNum (w n : Nat) : String :=
  String.mk (List.replicate (w - (toString n).length) '0') ++ toString n

/-- Broken-down wall-clock time as rendered by
`std::localtime` + `std::put_time` at log.h lines 269-276, together with the
millisecond remainder computed at line 270. -/
structure Timestamp where
  year : Nat
  month : Nat
  day : Nat
  hour : Nat
  minute : Nat
  sec : Nat
  ms : Nat
deriving DecidableEq, Repr

/-- Rendering of `std::put_time(tm, "%Y-%m-%d %H:%M:%S")` (log.h line 276):
four-digit year and two-digit zero-padded remaining fields. -/
def formatTime (t : Timestamp) : String :=
  padNum 4 t.year ++ "-" ++ padNum 2 t.month ++ "-" ++ padNum 2 t.day ++ " " ++
    padNum 2 t.hour ++ ":" ++ padNum 2 t.minute ++ ":" ++ padNum 2 t.sec

/-- `Logger::_formatLogMessage` (log.h lines 268-282).  The wall-clock time
(read from `std::chrono::system_clock::now()` at line 269) and the consumer
thread id (read via `syscall(SYS_gettid)` at line 290) are environment
inputs of the source function and are passed here as parameters `now` and
`tid`.  The appends mirror the successive `<<` writes into `oss`;
`std::endl` contributes the trailing newline. -/
def _formatLogMessage (now : Timestamp) (tid : Nat) (level : LogLevel)
    (message : String) (file : String) (func : String) (line : Int) : String :=
  "[" ++ formatTime now ++ "." ++ padNum 3 now.ms ++ "] " ++
    "[" ++ _logLevelToString level ++ "]" ++
    "[" ++ toString tid ++ "]: " ++ message ++
    " (" ++ String.mk (_extractFilename file.toList) ++ " " ++ func ++ ":" ++
    toString line ++ ")" ++ "\n"

/-- Modelled from the spec's words, for comparison only: the documented
output layout `[YYYY-MM-DD HH:MM:SS.mmm] [LEVEL] [pid/tid]: message
(basename:function:line)` — a space between the level tag and the id tag,
and colons separating basename, function and line. -/
def documentedLayout (now : Timestamp) (tid : Nat) (level : LogLevel)
    (message : String) (file : String) (func : String) (line : Int) : String :=
  "[" ++ formatTime now ++ "." ++ padNum 3 now.ms ++ "] " ++
    "[" ++ _logLevelToString level ++ "] " ++
    "[" ++ toString tid ++ "]: " ++ message ++
    " (" ++ String.mk (_extractFilename file.toList) ++ ":" ++ func ++ ":" ++
    toString line ++ ")"

/-- Sequential model of the mutable members of the `Logger` singleton
(log.h lines 362-370).  `fileOpen` models whether `_tFileStream` is open;
`fileSink` and `consoleSink` record the lines written to the two sinks;
`threadJoinable` models whether `_tAsyncThread` is joinable.  The mutex and
condition variable carry no sequential state. -/
structure LoggerState where
  bStopThread : Bool
  eLogLevel : LogLevel
  eConsoleColorThreshold : LogLevel
  fileOpen : Bool
  fileSink : List String
  consoleSink : List String
  logQueue : List LogEntry
  threadJoinable : Bool
deriving DecidableEq, Repr

/-- The freshly constructed singleton (log.h line 199 and the member
initialisers at lines 363-370): stop flag true, level INFO, console colour
threshold WARN, no file open, empty queue, default-constructed (non
joinable) thread. -/
def initialLoggerState : LoggerState :=
  { bStopThread := true
    eLogLevel := .INFO
    eConsoleColorThreshold := .WARN
    fileOpen := false
    fileSink := []
    consoleSink := []
    logQueue := []
    threadJoinable := false }

/-- `Logger::init` (log.h lines 141-148): set the level, open the sink in
append mode (`fileOpenOk` tells whether the open succeeded; failure is
silent, log.h lines 254-256), clear the stop flag and spawn the consumer
thread. -/
def Logger.init (s : LoggerState) (level : LogLevel) (fileOpenOk : Bool) : LoggerState :=
  { s with eLogLevel := level
           fileOpen := fileOpenOk
           bStopThread := false
           threadJoinable := true }

/-- `Logger::log` (log.h lines 158-171) as an atomic call: returns the state
after the call together with the exception it raised, if any.  The stop-flag
test precedes any mutation; below-threshold records are dropped without any
effect; otherwise the entry tuple is pushed at the back of the queue. -/
def Logger.log (s : LoggerState) (e : LogEntry) : LoggerState × Option LogError :=
  if s.bStopThread then
    (s, some (.logException "Logger has not been initialized"))
  else if levelGE e.level s.eLogLevel then
    ({ s with logQueue := s.logQueue ++ [e] }, none)
  else
    (s, none)

/-- `Logger::wait` (log.h lines 176-181): a bounded (one millisecond)
condition wait on the predicate `_LogQueue.empty()`.  The call reads the
queue and blocks; it writes nothing.  The returned Bool is the predicate
value the wait reports; the returned state is the engine state, untouched. -/
def Logger.wait (s : LoggerState) : Bool × LoggerState :=
  (s.logQueue.isEmpty, s)

/-- `Logger::shutdown` (log.h lines 186-193) as an atomic call: set the stop
flag under the lock, notify, then `join` the consumer thread.  `join` on a
thread that is not joinable (already joined, or never started) raises
`std::system_error`; on success the thread stops being joinable. -/
def Logger.shutdown (s : LoggerState) : LoggerState × Option LogError :=
  let s' := { s with bStopThread := true }
  if s'.threadJoinable then
    ({ s' with threadJoinable := false }, none)
  else
    (s', some .systemError)

/-- Associativity of string append, used to normalise formatted output. -/
theorem strAppendAssoc (a b c : String) : a ++ b ++ c = a ++ (b ++ c) := by
  cases a; cases b; cases c
  show String.mk _ = String.mk _
  simp [String.append, List.append_assoc]

/-- Thread roles of the concurrent model: the single consumer thread, one
producer thread issuing `Logger::log` calls, and the main thread issuing
`Logger::shutdown`. -/
inductive Tid where
  | consumer
  | producer
  | mainThread
deriving DecidableEq, Repr

/-- Program counter of the consumer thread inside
`Logger::_processLogQueue` (log.h lines 318-360):
`outerCheck` = about to read `_bStopThread` in the outer `while` (line 319,
no lock held); `lockAcquire` = about to construct the `unique_lock`
(line 320); `waitCheck` = holding the lock, evaluating the wait predicate
(line 321); `waitBlocked` = blocked inside the condition wait, lock
released; `waitReacquire` = woken, waiting to reacquire the lock inside
`wait`; `innerCheck` = holding the lock, evaluating `_LogQueue.empty()`
(line 323); `writeRec` = lock released (line 326), formatting and writing
the popped entry (lines 328-355); `relock` = reacquiring the lock
(line 357); `exited` = the loop has returned. -/
inductive CLoc where
  | outerCheck
  | lockAcquire
  | waitCheck
  | waitBlocked
  | waitReacquire
  | innerCheck
  | writeRec
  | relock
  | exited
deriving DecidableEq, Repr

/-- Program counter of the producer thread inside one `Logger::log` call
(log.h lines 158-171): `idle` = between calls, about to run the stop-flag
and level tests of the next call (lines 160-166, no lock); `wantLock` =
past the tests, acquiring the `lock_guard` (line 167); `pushRec` = holding
the lock, pushing the entry and notifying (lines 168-169). -/
inductive PLoc where
  | idle
  | wantLock
  | pushRec
deriving DecidableEq, Repr

/-- Program counter of the main thread inside `Logger::shutdown`
(log.h lines 186-193): `callShutdown` = acquiring the `lock_guard`
(line 188); `setStopFlag` = holding the lock, setting `_bStopThread`
(line 189); `joining` = blocked in `join` (line 192); `joined` =
`shutdown` has returned. -/
inductive MLoc where
  | callShutdown
  | setStopFlag
  | joining
  | joined
deriving DecidableEq, Repr

/-- Shared state of the concurrent model.  `lockHeld` is the owner of
`_tMutex` (if any); `queue` is `_LogQueue`; `fileSink` and `consoleSink`
record, in order, the records written to the file and the console by the
consumer (formatting of individual lines is handled by
`_formatLogMessage`); `held` is the consumer's local `logEntry` variable
between the pop and the end of the write (log.h lines 324-355); `pArg` is
the producer's in-flight record; `pending` the producer's remaining
`Logger::log` calls, in program order; `pushedLog` is the history of the
records pushed into the queue, in push order. -/
structure Sys where
  stopFlag : Bool
  lockHeld : Option Tid
  queue : List LogEntry
  fileOpen : Bool
  logLevel : LogLevel
  fileSink : List LogEntry
  consoleSink : List LogEntry
  cLoc : CLoc
  held : Option LogEntry
  pLoc : PLoc
  pArg : Option LogEntry
  pending : List LogEntry
  mLoc : MLoc
  pushedLog : List LogEntry
deriving DecidableEq, Repr

/-- One atomic action of the consumer thread (`Logger::_processLogQueue`,
log.h lines 318-360).  A location whose operation cannot proceed (the lock
is taken) leaves the state unchanged.  The transition
`waitBlocked → waitReacquire` is always enabled: C++ condition waits allow
spurious wakeups, so every schedule of the real program is a schedule of
this model. -/
def conStep (s : Sys) : Sys :=
  match s.cLoc with
  | .outerCheck =>
      if s.stopFlag then { s with cLoc := .exited } else { s with cLoc := .lockAcquire }
  | .lockAcquire =>
      match s.lockHeld with
      | none => { s with lockHeld := some .consumer, cLoc := .waitCheck }
      | some _ => s
  | .waitCheck =>
      if s.stopFlag || !s.queue.isEmpty then { s with cLoc := .innerCheck }
      else { s with lockHeld := none, cLoc := .waitBlocked }
  | .waitBlocked => { s with cLoc := .waitReacquire }
  | .waitReacquire =>
      match s.lockHeld with
      | none => { s with lockHeld := some .consumer, cLoc := .waitCheck }
      | some _ => s
  | .innerCheck =>
      match s.queue with
      | [] => { s with lockHeld := none, cLoc := .outerCheck }
      | e :: rest => { s with held := some e, queue := rest, lockHeld := none, cLoc := .writeRec }
  | .writeRec =>
      match s.held with
      | some e =>
          { s with fileSink := if s.fileOpen then s.fileSink ++ [e] else s.fileSink
                   consoleSink := s.consoleSink ++ [e]
                   held := none
                   cLoc := .relock }
      | none => { s with cLoc := .relock }
  | .relock =>
      match s.lockHeld with
      | none => { s with lockHeld := some .consumer, cLoc := .innerCheck }
      | some _ => s
  | .exited => s

/-- One atomic action of the producer thread (`Logger::log`, log.h lines
158-171).  At `idle` the next pending call runs the unlocked stop-flag test
(line 160: when the flag is set the call throws and pushes nothing) and the
level filter (line 166, against the threshold fixed at `init`); an accepted
record proceeds to the lock. -/
def prodStep (s : Sys) : Sys :=
  match s.pLoc with
  | .idle =>
      match s.pending with
      | [] => s
      | e :: rest =>
          if s.stopFlag then { s with pending := rest }
          else if levelGE e.level s.logLevel then
            { s with pending := rest, pArg := some e, pLoc := .wantLock }
          else { s with pending := rest }
  | .wantLock =>
      match s.lockHeld with
      | none => { s with lockHeld := some .producer, pLoc := .pushRec }
      | some _ => s
  | .pushRec =>
      match s.pArg with
      | some e =>
          { s with queue := s.queue ++ [e]
                   pushedLog := s.pushedLog ++ [e]
                   pArg := none
                   lockHeld := none
                   pLoc := .idle }
      | none => { s with lockHeld := none, pLoc := .idle }

/-- One atomic action of the main thread (`Logger::shutdown`, log.h lines
186-193): take the lock, set the stop flag and release, then block in
`join` until the consumer's loop has exited. -/
def mainStep (s : Sys) : Sys :=
  match s.mLoc with
  | .callShutdown =>
      match s.lockHeld with
      | none => { s with lockHeld := some .mainThread, mLoc := .setStopFlag }
      | some _ => s
  | .setStopFlag => { s with stopFlag := true, lockHeld := none, mLoc := .joining }
  | .joining => if s.cLoc = .exited then { s with mLoc := .joined } else s
  | .joined => s

/-- Schedule labels: which thread performs its next atomic action. -/
inductive Label where
  | con
  | prod
  | mainT
deriving DecidableEq, Repr

/-- Dispatch one scheduled atomic action. -/
def step : Label → Sys → Sys
  | .con, s => conStep s
  | .prod, s => prodStep s
  | .mainT, s => mainStep s

/-- Run a finite schedule from a state. -/
def run (sched : List Label) (s : Sys) : Sys :=
  sched.foldl (fun t l => step l t) s

/-- State of the system just after `Logger::init` (log.h lines 141-148)
with a successfully opened file sink: stop flag clear, threshold set,
consumer thread at its entry point, producer about to issue the given
`Logger::log` calls, main thread about to call `Logger::shutdown` when
scheduled. -/
def initSys (lvl : LogLevel) (pending : List LogEntry) : Sys :=
  { stopFlag := false
    lockHeld := none
    queue := []
    fileOpen := true
    logLevel := lvl
    fileSink := []
    consoleSink := []
    cLoc := .outerCheck
    held := none
    pLoc := .idle
    pArg := none
    pending := pending
    mLoc := .callShutdown
    pushedLog := [] }

/-- Inductive invariant of the concurrent model: the file sink is opened and
the threshold fixed at `init`; the consumer's local entry is empty except
between pop and write; the file sink, the in-flight entry and the queue
concatenate to exactly the push history (each pushed record is written at
most once, in push order, and nothing else is ever written); every pushed or
in-flight record passed the level filter; and the consumer never holds the
mutex while formatting and writing a record. -/
def SysInv (lvl : LogLevel) (s : Sys) : Prop :=
  s.fileOpen = true ∧
  s.logLevel = lvl ∧
  (s.cLoc ≠ CLoc.writeRec → s.held = none) ∧
  s.fileSink ++ s.held.toList ++ s.queue = s.pushedLog ∧
  (∀ e ∈ s.pushedLog, levelGE e.level lvl = true) ∧
  (∀ e, s.pArg = some e → levelGE e.level lvl = true) ∧
  (s.cLoc = CLoc.writeRec → s.lockHeld ≠ some Tid.consumer)

/-- Every consumer action preserves the invariant. -/
theorem conStepInv (lvl : LogLevel) (s : Sys) (h : SysInv lvl s) : SysInv lvl (conStep s) := by
  obtain ⟨h1, h2, h3, h4, h5, h6, h7⟩ := h
  unfold SysInv conStep
  split <;>
    (try split) <;>
    simp_all [List.append_assoc, List.singleton_append]

/-- Every producer action preserves the invariant. -/
theorem prodStepInv (lvl : LogLevel) (s : Sys) (h : SysInv lvl s) : SysInv lvl (prodStep s) := by
  obtain ⟨h1, h2, h3, h4, h5, h6, h7⟩ := h
  unfold SysInv prodStep
  split <;> (try split) <;> (try split) <;> (try split) <;>
    simp_all [List.append_assoc, List.singleton_append, List.mem_append]
  constructor
  · rw [← h4]; simp [List.append_assoc]
  · rintro e' (hx | rfl)
    · exact h5 e' hx
    · assumption

/-- Every main-thread action preserves the invariant. -/
theorem mainStepInv (lvl : LogLevel) (s : Sys) (h : SysInv lvl s) : SysInv lvl (mainStep s) := by
  obtain ⟨h1, h2, h3, h4, h5, h6, h7⟩ := h
  unfold SysInv mainStep
  split <;>
    (try split) <;>
    simp_all

/-- Every scheduled action preserves the invariant. -/
theorem stepInv (lvl : LogLevel) (l : Label) (s : Sys) (h : SysInv lvl s) :
    SysInv lvl (step l s) := by
  cases l with
  | con => exact conStepInv lvl s h
  | prod => exact prodStepInv lvl s h
  | mainT => exact mainStepInv lvl s h

/-- Running any schedule preserves the invariant. -/
theorem runInv (lvl : LogLevel) (sched : List Label) (s : Sys) (h : SysInv lvl s) :
    SysInv lvl (run sched s) := by
  induction sched generalizing s with
  | nil => exact h
  | cons l ls ih => exact ih (step l s) (stepInv lvl l s h)

/-- The post-`init` state satisfies the invariant. -/
theorem initSysInv (lvl : LogLevel) (pending : List LogEntry) :
    SysInv lvl (initSys lvl pending) := by
  unfold SysInv initSys
  simp

/-- Auxiliary invariant for the console sink: the record the consumer
currently holds, and every record it has written to the console (log.h
lines 336-355), passed the level filter.  The consumer only ever writes
the entry it popped from the queue, and only filtered records are pushed
there. -/
def ConsoleInv (lvl : LogLevel) (s : Sys) : Prop :=
  (∀ e, s.held = some e → levelGE e.level lvl = true) ∧
  (∀ e ∈ s.consoleSink, levelGE e.level lvl = true)

/-- Every consumer action preserves the console invariant: the popped
entry comes from the queue, whose records all passed the filter, and the
console write emits exactly the held entry. -/
theorem conStepConsoleInv (lvl : LogLevel) (s : Sys) (hs : SysInv lvl s)
    (hc : ConsoleInv lvl s) : ConsoleInv lvl (conStep s) := by
  obtain ⟨h1, h2, h3, h4, h5, h6, h7⟩ := hs
  obtain ⟨c1, c2⟩ := hc
  unfold ConsoleInv conStep
  split
  · split <;> exact ⟨c1, c2⟩
  · split <;> exact ⟨c1, c2⟩
  · split <;> exact ⟨c1, c2⟩
  · exact ⟨c1, c2⟩
  · split <;> exact ⟨c1, c2⟩
  · split
    · exact ⟨c1, c2⟩
    · next e rest hq =>
      refine ⟨?_, c2⟩
      intro e' he'
      obtain rfl : e = e' := Option.some.inj he'
      apply h5
      rw [← h4, hq]
      exact List.mem_append.2 (Or.inr (List.mem_cons_self e rest))
  · split
    · next e hheld =>
      refine ⟨?_, ?_⟩
      · intro e' he'
        exact Option.noConfusion he'
      · intro x hx
        rcases List.mem_append.1 hx with hx | hx
        · exact c2 x hx
        · rw [List.mem_singleton.1 hx]
          exact c1 e hheld
    · exact ⟨c1, c2⟩
  · split <;> exact ⟨c1, c2⟩
  · exact ⟨c1, c2⟩

/-- Producer actions never touch the consumer's held entry or the console
sink. -/
theorem prodStepConsoleInv (lvl : LogLevel) (s : Sys) (hc : ConsoleInv lvl s) :
    ConsoleInv lvl (prodStep s) := by
  obtain ⟨c1, c2⟩ := hc
  unfold ConsoleInv prodStep
  split <;> (try split) <;> (try split) <;> (try split) <;> exact ⟨c1, c2⟩

/-- Main-thread actions never touch the consumer's held entry or the
console sink. -/
theorem mainStepConsoleInv (lvl : LogLevel) (s : Sys) (hc : ConsoleInv lvl s) :
    ConsoleInv lvl (mainStep s) := by
  obtain ⟨c1, c2⟩ := hc
  unfold ConsoleInv mainStep
  split <;> (try split) <;> exact ⟨c1, c2⟩

/-- Every scheduled action preserves the console invariant (given the main
invariant). -/
theorem stepConsoleInv (lvl : LogLevel) (l : Label) (s : Sys) (hs : SysInv lvl s)
    (hc : ConsoleInv lvl s) : ConsoleInv lvl (step l s) := by
  cases l with
  | con => exact conStepConsoleInv lvl s hs hc
  | prod => exact prodStepConsoleInv lvl s hc
  | mainT => exact mainStepConsoleInv lvl s hc

/-- Running any schedule preserves the console invariant. -/
theorem runConsoleInv (lvl : LogLevel) (sched : List Label) (s : Sys) (hs : SysInv lvl s)
    (hc : ConsoleInv lvl s) : ConsoleInv lvl (run sched s) := by
  induction sched generalizing s with
  | nil => exact hc
  | cons l ls ih =>
    exact ih (step l s) (stepInv lvl l s hs) (stepConsoleInv lvl l s hs hc)

/-- The post-`init` state satisfies the console invariant. -/
theorem initSysConsoleInv (lvl : LogLevel) (pending : List LogEntry) :
    ConsoleInv lvl (initSys lvl pending) := by
  unfold ConsoleInv initSys
  simp

/-- Helper: takeWhile over an append whose first part wholly satisfies the
predicate continues into the second part. -/
theorem takeWhileAppendOfAll {α : Type} {p : α → Bool} (l1 l2 : List α)
    (h : ∀ a ∈ l1, p a = true) :
    (l1 ++ l2).takeWhile p = l1 ++ l2.takeWhile p := by
  induction l1 with
  | nil => simp
  | cons a t ih =>
    have ha : p a = true := h a (by simp)
    have ih' := ih (fun x hx => h x (by simp [hx]))
    simp [List.takeWhile_cons, ha, ih']

/-- Helper: takeWhile over an append whose first part contains a failing
element never reaches the second part. -/
theorem takeWhileAppendOfBad {α : Type} {p : α → Bool} (l1 l2 : List α)
    (h : ∃ a ∈ l1, p a = false) :
    (l1 ++ l2).takeWhile p = l1.takeWhile p := by
  induction l1 with
  | nil =>
    obtain ⟨a, ha, _⟩ := h
    exact absurd ha (List.not_mem_nil a)
  | cons a t ih =>
    by_cases ha : p a = true
    · have ht : ∃ x ∈ t, p x = false := by
        obtain ⟨x, hx, hpx⟩ := h
        rcases List.mem_cons.1 hx with rfl | hx'
        · rw [ha] at hpx; cases hpx
        · exact ⟨x, hx', hpx⟩
      simp [List.takeWhile_cons, ha, ih ht]
    · have ha' : p a = false := by
        cases hpa : p a
        · rfl
        · exact absurd hpa ha
      simp [List.takeWhile_cons, ha']

/-- When the scanned part contains no separator, the scanning loop returns
its current candidate unchanged. -/
theorem extractLoopOfNoSlash (p : List Char) : ∀ f : List Char,
    p.any isSlash = false → extractLoop f p = f := by
  induction p with
  | nil => intro f _; rfl
  | cons c rest ih =>
    intro f hany
    rw [List.any_cons] at hany
    have hc : isSlash c = false := by
      cases hsc : isSlash c
      · rfl
      · rw [hsc] at hany; simp at hany
    have hrest : rest.any isSlash = false := by
      rw [hc] at hany; simpa using hany
    show (if isSlash c then extractLoop rest rest else extractLoop f rest) = f
    rw [hc]
    simpa using ih f hrest

/-- When the scanned part contains a separator, the scanning loop returns
the suffix after the last separator of the scanned part, whatever the
current candidate. -/
theorem extractLoopOfSlash (p : List Char) : ∀ f : List Char,
    p.any isSlash = true → extractLoop f p = suffixAfterLastSlash p := by
  induction p with
  | nil => intro f h; simp at h
  | cons c rest ih =>
    intro f hany
    by_cases hrest : rest.any isSlash = true
    · have hbad : ∃ a ∈ rest.reverse, (fun x => !isSlash x) a = false := by
        obtain ⟨x, hx, hpx⟩ := List.any_eq_true.1 hrest
        exact ⟨x, List.mem_reverse.2 hx, by simp [hpx]⟩
      have hsuf : suffixAfterLastSlash (c :: rest) = suffixAfterLastSlash rest := by
        unfold suffixAfterLastSlash
        rw [List.reverse_cons, takeWhileAppendOfBad _ _ hbad]
      by_cases hc : isSlash c = true
      · show (if isSlash c then extractLoop rest rest else extractLoop f rest) =
          suffixAfterLastSlash (c :: rest)
        rw [hc, if_pos rfl, ih rest hrest, hsuf]
      · have hc' : isSlash c = false := by
          cases hsc : isSlash c
          · rfl
          · exact absurd hsc hc
        show (if isSlash c then extractLoop rest rest else extractLoop f rest) =
          suffixAfterLastSlash (c :: rest)
        rw [hc']
        simpa [hsuf] using ih f hrest
    · have hrest' : rest.any isSlash = false := by
        cases hra : rest.any isSlash
        · rfl
        · exact absurd hra hrest
      have hc : isSlash c = true := by
        rw [List.any_cons, hrest'] at hany
        simpa using hany
      have hall : ∀ a ∈ rest.reverse, (fun x => !isSlash x) a = true := by
        intro a ha
        have hna : isSlash a = false := by
          cases hsa : isSlash a
          · rfl
          · exact absurd (List.any_eq_true.2 ⟨a, List.mem_reverse.1 ha, hsa⟩)
              (by rw [hrest']; simp)
        simp [hna]
      have hsuf : suffixAfterLastSlash (c :: rest) = rest := by
        unfold suffixAfterLastSlash
        rw [List.reverse_cons, takeWhileAppendOfAll _ _ hall]
        simp [List.takeWhile_cons, hc]
      show (if isSlash c then extractLoop rest rest else extractLoop f rest) =
        suffixAfterLastSlash (c :: rest)
      rw [hc, if_pos rfl, hsuf]
      exact extractLoopOfNoSlash rest rest hrest'

/-- Claim C6: for every origin file path, `Logger::_extractFilename` returns
the suffix following the last `'/'` or `'\'` (the longest separator-free
suffix); the result contains no separator; the result is a suffix of the
path; and a path without separators is returned unchanged. -/
theorem claim_C6 (l : List Char) :
    _extractFilename l = suffixAfterLastSlash l ∧
    (∀ c ∈ _extractFilename l, isSlash c = false) ∧
    (∃ pre, l = pre ++ _extractFilename l) ∧
    ((∀ c ∈ l, isSlash c = false) → _extractFilename l = l) := by
  have hmain : _extractFilename l = suffixAfterLastSlash l := by
    cases hany : l.any isSlash
    · rw [_extractFilename, extractLoopOfNoSlash l l hany]
      unfold suffixAfterLastSlash
      have : ∀ a ∈ l.reverse, (fun x => !isSlash x) a = true := by
        intro a ha
        have hna : isSlash a = false := by
          cases hsa : isSlash a
          · rfl
          · exact absurd (List.any_eq_true.2 ⟨a, List.mem_reverse.1 ha, hsa⟩)
              (by rw [hany]; simp)
        simp [hna]
      rw [List.takeWhile_eq_self_iff.2 this, List.reverse_reverse]
    · exact extractLoopOfSlash l l hany
  refine ⟨hmain, ?_, ?_, ?_⟩
  · intro c hc
    rw [hmain] at hc
    unfold suffixAfterLastSlash at hc
    have := List.mem_takeWhile_imp (List.mem_reverse.1 hc)
    cases hsc : isSlash c
    · rfl
    · rw [hsc] at this; simp at this
  · refine ⟨(l.reverse.dropWhile (fun x => !isSlash x)).reverse, ?_⟩
    rw [hmain]
    unfold suffixAfterLastSlash
    rw [← List.reverse_append, List.takeWhile_append_dropWhile, List.reverse_reverse]
  · intro hno
    have hany : l.any isSlash = false := by
      cases hla : l.any isSlash
      · rfl
      · obtain ⟨x, hx, hpx⟩ := List.any_eq_true.1 hla
        rw [hno x hx] at hpx
        cases hpx
    rw [_extractFilename, extractLoopOfNoSlash l l hany]

/-- Witness for claim C6: a path without separators is returned unchanged. -/
theorem claim_C6_witness :
    _extractFilename (String.toList "abc") = String.toList "abc" :=
  (claim_C6 (String.toList "abc")).2.2.2 (by decide)

/-- Counterexample for claim C5: at the claim's concrete record, capture
time 2024-06-22 10:00:00.500 and thread id 1234, the formatter's output is
`[2024-06-22 10:00:00.500] [WARN][1234]: disk low (c.cpp poll:42)` plus a
newline — no space between the level tag and the id tag, and a space (not a
colon) between basename and function — so it differs from the documented
layout `[ts] [LEVEL] [pid/tid]: message (basename:function:line)`. -/
theorem claim_C5_counterexample :
    _formatLogMessage ⟨2024, 6, 22, 10, 0, 0, 500⟩ 1234 LogLevel.WARN
        "disk low" "/a/b/c.cpp" "poll" 42 =
      "[2024-06-22 10:00:00.500] [WARN][1234]: disk low (c.cpp poll:42)\n" ∧
    _formatLogMessage ⟨2024, 6, 22, 10, 0, 0, 500⟩ 1234 LogLevel.WARN
        "disk low" "/a/b/c.cpp" "poll" 42 ≠
      documentedLayout ⟨2024, 6, 22, 10, 0, 0, 500⟩ 1234 LogLevel.WARN
        "disk low" "/a/b/c.cpp" "poll" 42 := by
  constructor
  · decide
  · decide

/-- Claim C5 (amended): for the fixed record (level Warn, message
"disk low", file "/a/b/c.cpp", function "poll", line 42) and fixed capture
time 2024-06-22 10:00:00.500, the formatter is deterministic — for every
thread id the whole line is the single string below — so the line begins
with `[2024-06-22 10:00:00.500] [WARN]` and ends with `(c.cpp poll:42)`
followed by the newline; the level tag is immediately followed by the id
tag (no space), and basename and function are separated by a space. -/
theorem claim_C5_amended (tid : Nat) :
    _formatLogMessage ⟨2024, 6, 22, 10, 0, 0, 500⟩ tid LogLevel.WARN
        "disk low" "/a/b/c.cpp" "poll" 42 =
      "[2024-06-22 10:00:00.500] [WARN][" ++ toString tid ++
        "]: disk low (c.cpp poll:42)\n" := by
  simp only [_formatLogMessage, strAppendAssoc]
  rfl

/-- Claim C7: the console copy of each formatted line is wrapped in the
colour escape selected by the record's level (Debug → green `\033[32m`,
Info → default `\033[0m`, Warn → yellow `\033[33m`, Error → red `\033[31m`)
and followed by the reset escape `\033[0m` immediately after the line, so
no colour escape remains active afterwards (the two resets in front are
emitted by the `ConsoleColorSetter` destructors before the line is
printed). -/
theorem claim_C7 (msg : String) :
    consoleEmit LogLevel.DBUG msg = "\x1b[0m" ++ "\x1b[0m" ++ "\x1b[32m" ++ msg ++ "\x1b[0m" ∧
    consoleEmit LogLevel.INFO msg = "\x1b[0m" ++ "\x1b[0m" ++ "\x1b[0m" ++ msg ++ "\x1b[0m" ∧
    consoleEmit LogLevel.WARN msg = "\x1b[0m" ++ "\x1b[0m" ++ "\x1b[33m" ++ msg ++ "\x1b[0m" ∧
    consoleEmit LogLevel.EROR msg = "\x1b[0m" ++ "\x1b[0m" ++ "\x1b[31m" ++ msg ++ "\x1b[0m" :=
  ⟨rfl, rfl, rfl, rfl⟩

/-- Claim C2: in the Running state (stop flag clear), `Logger::log` returns
no error and enqueues the record exactly when its level reaches the
threshold; a record strictly below the threshold leaves the state exactly
as it was (silently discarded, nothing enqueued).  Moreover, in the
concurrent model no record below the threshold ever reaches the file sink
or the console output, over every schedule. -/
theorem claim_C2 (s : LoggerState) (e : LogEntry) (hrun : s.bStopThread = false) :
    Logger.log s e =
      ((if levelGE e.level s.eLogLevel then { s with logQueue := s.logQueue ++ [e] } else s),
        none) ∧
    ∀ (lvl : LogLevel) (pending : List LogEntry) (sched : List Label) (r : LogEntry),
      (r ∈ (run sched (initSys lvl pending)).fileSink → levelGE r.level lvl = true) ∧
      (r ∈ (run sched (initSys lvl pending)).consoleSink → levelGE r.level lvl = true) := by
  constructor
  · simp only [Logger.log, hrun, Bool.false_eq_true, if_false]
    split <;> rfl
  · intro lvl pending sched r
    obtain ⟨h1, h2, h3, h4, h5, h6, h7⟩ :=
      runInv lvl sched (initSys lvl pending) (initSysInv lvl pending)
    obtain ⟨c1, c2⟩ :=
      runConsoleInv lvl sched (initSys lvl pending) (initSysInv lvl pending)
        (initSysConsoleInv lvl pending)
    constructor
    · intro hr
      apply h5
      rw [← h4]
      exact List.mem_append.2 (Or.inl (List.mem_append.2 (Or.inl hr)))
    · intro hr
      exact c2 r hr

/-- Witness for claim C2: after `init` at threshold INFO, a DBUG record is
dropped with no state change and no error; a concrete EROR record that a
schedule carries into the file sink passes the DBUG threshold; and a
concrete WARN record that a schedule carries into the console output
passes the DBUG threshold. -/
theorem claim_C2_witness :
    Logger.log (Logger.init initialLoggerState LogLevel.INFO true)
        ⟨LogLevel.DBUG, "drop me", "a.cpp", "f", 3⟩ =
      (Logger.init initialLoggerState LogLevel.INFO true, none) ∧
    levelGE LogLevel.EROR LogLevel.DBUG = true ∧
    levelGE LogLevel.WARN LogLevel.DBUG = true := by
  refine ⟨?_, ?_, ?_⟩
  · exact (claim_C2 (Logger.init initialLoggerState LogLevel.INFO true)
      ⟨LogLevel.DBUG, "drop me", "a.cpp", "f", 3⟩ rfl).1.trans (by decide)
  · exact ((claim_C2 (Logger.init initialLoggerState LogLevel.INFO true)
      ⟨LogLevel.DBUG, "drop me", "a.cpp", "f", 3⟩ rfl).2
      LogLevel.DBUG [⟨LogLevel.EROR, "kept", "a.cpp", "f", 4⟩]
      [Label.prod, Label.prod, Label.prod, Label.con, Label.con, Label.con, Label.con,
        Label.con]
      ⟨LogLevel.EROR, "kept", "a.cpp", "f", 4⟩).1 (by decide)
  · exact ((claim_C2 (Logger.init initialLoggerState LogLevel.INFO true)
      ⟨LogLevel.DBUG, "drop me", "a.cpp", "f", 3⟩ rfl).2
      LogLevel.DBUG [⟨LogLevel.WARN, "shown", "a.cpp", "f", 5⟩]
      [Label.prod, Label.prod, Label.prod, Label.con, Label.con, Label.con, Label.con,
        Label.con]
      ⟨LogLevel.WARN, "shown", "a.cpp", "f", 5⟩).2 (by decide)

/-- Claim C3: `Logger::log` called on the freshly constructed engine
(before `init`) fails with the `LogException` carrying
"Logger has not been initialized", leaving the state unchanged, and the
same holds after any `shutdown` call (which always leaves the stop flag
set), whatever the record; the error is returned to the caller, not
swallowed. -/
theorem claim_C3 (e : LogEntry) :
    Logger.log initialLoggerState e =
      (initialLoggerState, some (LogError.logException "Logger has not been initialized")) ∧
    ∀ s : LoggerState,
      Logger.log (Logger.shutdown s).1 e =
        ((Logger.shutdown s).1,
          some (LogError.logException "Logger has not been initialized")) := by
  constructor
  · rfl
  · intro s
    by_cases hj : s.threadJoinable <;>
      simp [Logger.shutdown, Logger.log, hj]

/-- Counterexample for claim C4: after `init` and one completed `shutdown`,
a second `shutdown` raises the `std::system_error` coming from
`std::thread::join` on a no-longer-joinable thread, which is not the
`LogException` (UninitializedError) the claim promises. -/
theorem claim_C4_counterexample :
    (Logger.shutdown
        (Logger.shutdown (Logger.init initialLoggerState LogLevel.DBUG true)).1).2 =
      some LogError.systemError ∧
    some LogError.systemError ≠
      some (LogError.logException "Logger has not been initialized") := by
  constructor
  · rfl
  · decide

/-- Claim C4 (amended): calling `shutdown` a second time after a completed
`shutdown` is surfaced to the caller as the `std::system_error` raised by
`join` on the already-joined consumer thread — not as `UninitializedError`
(no `LogException` is raised by `shutdown`). -/
theorem claim_C4_amended (s s' : LoggerState) (h : Logger.shutdown s = (s', none)) :
    (Logger.shutdown s').2 = some LogError.systemError := by
  by_cases hj : s.threadJoinable
  · simp [Logger.shutdown, hj] at h
    rw [← h]
    simp [Logger.shutdown]
  · simp [Logger.shutdown, hj] at h

/-- Witness for claim C4 (amended): the concrete state left by
`init` + `shutdown`, on which a second `shutdown` reports the join error. -/
theorem claim_C4_witness :
    (Logger.shutdown
        { bStopThread := true, eLogLevel := LogLevel.DBUG,
          eConsoleColorThreshold := LogLevel.WARN, fileOpen := true, fileSink := [],
          consoleSink := [], logQueue := [], threadJoinable := false }).2 =
      some LogError.systemError :=
  claim_C4_amended (Logger.init initialLoggerState LogLevel.DBUG true) _ (by decide)

/-- Claim C9: `Logger::wait` performs no state transition: the engine state
after the call — in particular the stop flag, the level threshold, the file
sink and the queue contents — is exactly the state before the call; it
consumes no records. -/
theorem claim_C9 (s : LoggerState) :
    (Logger.wait s).2 = s ∧
    (Logger.wait s).2.bStopThread = s.bStopThread ∧
    (Logger.wait s).2.eLogLevel = s.eLogLevel ∧
    (Logger.wait s).2.fileOpen = s.fileOpen ∧
    (Logger.wait s).2.fileSink = s.fileSink ∧
    (Logger.wait s).2.logQueue = s.logQueue :=
  ⟨rfl, rfl, rfl, rfl, rfl, rfl⟩

/-- Claim C10: whenever `Logger::log` raises an error, the state it leaves
behind is exactly the state it was given — the stop-flag test precedes any
mutation of the queue, threshold, flag or sinks. -/
theorem claim_C10 (s : LoggerState) (e : LogEntry) (err : LogError)
    (h : (Logger.log s e).2 = some err) : (Logger.log s e).1 = s := by
  by_cases hstop : s.bStopThread
  · simp [Logger.log, hstop]
  · by_cases hlev : levelGE e.level s.eLogLevel
    · simp [Logger.log, hstop, hlev] at h
    · simp [Logger.log, hstop, hlev]

/-- Witness for claim C10: a `log` call on the uninitialised engine errors
and leaves the state untouched. -/
theorem claim_C10_witness :
    (Logger.log initialLoggerState ⟨LogLevel.EROR, "late", "a.cpp", "f", 9⟩).1 =
      initialLoggerState :=
  claim_C10 initialLoggerState ⟨LogLevel.EROR, "late", "a.cpp", "f", 9⟩
    (LogError.logException "Logger has not been initialized") (by decide)

/-- Counterexample for claim C1: a legal interleaving in which a record is
accepted by `Logger::log` while the engine is running, yet `shutdown`
returns (join completed, consumer loop exited) with the record still in the
queue and the file sink empty.  The schedule: the producer pushes one INFO
record; the main thread sets the stop flag; the consumer's first action is
the unlocked outer `while (!_bStopThread)` read (log.h line 319), which now
sees the flag and exits without ever examining the queue; `join` then
returns.  The consumer loop therefore does not exit "only after the queue
is fully drained", and the record is never written. -/
theorem claim_C1_counterexample :
    (run [Label.prod, Label.prod, Label.prod, Label.mainT, Label.mainT, Label.con,
          Label.mainT]
        (initSys LogLevel.DBUG [⟨LogLevel.INFO, "lost", "a.cpp", "f", 7⟩])).mLoc =
      MLoc.joined ∧
    (run [Label.prod, Label.prod, Label.prod, Label.mainT, Label.mainT, Label.con,
          Label.mainT]
        (initSys LogLevel.DBUG [⟨LogLevel.INFO, "lost", "a.cpp", "f", 7⟩])).cLoc =
      CLoc.exited ∧
    (run [Label.prod, Label.prod, Label.prod, Label.mainT, Label.mainT, Label.con,
          Label.mainT]
        (initSys LogLevel.DBUG [⟨LogLevel.INFO, "lost", "a.cpp", "f", 7⟩])).fileSink =
      [] ∧
    (run [Label.prod, Label.prod, Label.prod, Label.mainT, Label.mainT, Label.con,
          Label.mainT]
        (initSys LogLevel.DBUG [⟨LogLevel.INFO, "lost", "a.cpp", "f", 7⟩])).queue =
      [⟨LogLevel.INFO, "lost", "a.cpp", "f", 7⟩] := by
  decide

/-- Claim C1 (amended): over every schedule, the records written to the
file sink, the record the consumer currently holds, and the records still
queued concatenate to exactly the sequence of records enqueued, in
enqueue (submission) order — so each accepted record is written at most
once, in submission order, and nothing not submitted is ever written.  The
full-drain part of the original claim is dropped: as the counterexample
shows, `shutdown()` can return with an accepted record still queued and
unwritten. -/
theorem claim_C1_amended (lvl : LogLevel) (pending : List LogEntry) (sched : List Label) :
    (run sched (initSys lvl pending)).fileSink ++
        (run sched (initSys lvl pending)).held.toList ++
        (run sched (initSys lvl pending)).queue =
      (run sched (initSys lvl pending)).pushedLog :=
  (runInv lvl sched (initSys lvl pending) (initSysInv lvl pending)).2.2.2.1

/-- Counterexample for claim C8: a reachable state in which the consumer has
already formatted and written the first of two records that were both
queued when it woke, while the second record is still in the queue and the
consumer is about to reacquire the lock (log.h line 357) for a second
acquisition.  The wake-up batch is therefore not removed atomically under a
single lock acquisition before any record is written: records are popped
one at a time (log.h lines 324-326). -/
theorem claim_C8_counterexample :
    (run [Label.prod, Label.prod, Label.prod, Label.prod, Label.prod, Label.prod,
          Label.con, Label.con, Label.con, Label.con, Label.con]
        (initSys LogLevel.DBUG
          [⟨LogLevel.INFO, "first", "a.cpp", "f", 1⟩,
           ⟨LogLevel.WARN, "second", "a.cpp", "f", 2⟩])).fileSink =
      [⟨LogLevel.INFO, "first", "a.cpp", "f", 1⟩] ∧
    (run [Label.prod, Label.prod, Label.prod, Label.prod, Label.prod, Label.prod,
          Label.con, Label.con, Label.con, Label.con, Label.con]
        (initSys LogLevel.DBUG
          [⟨LogLevel.INFO, "first", "a.cpp", "f", 1⟩,
           ⟨LogLevel.WARN, "second", "a.cpp", "f", 2⟩])).queue =
      [⟨LogLevel.WARN, "second", "a.cpp", "f", 2⟩] ∧
    (run [Label.prod, Label.prod, Label.prod, Label.prod, Label.prod, Label.prod,
          Label.con, Label.con, Label.con, Label.con, Label.con]
        (initSys LogLevel.DBUG
          [⟨LogLevel.INFO, "first", "a.cpp", "f", 1⟩,
           ⟨LogLevel.WARN, "second", "a.cpp", "f", 2⟩])).cLoc =
      CLoc.relock := by
  decide

/-- Claim C8 (amended): the consumer removes queued records one at a time,
not as an atomic batch: each removal takes exactly the front record of the
queue and releases the lock before that record is formatted or written
(over every schedule, whenever the consumer is in its format-and-write
step it does not hold the mutex), so producers are never blocked by
formatting or I/O latency. -/
theorem claim_C8_amended :
    (∀ (lvl : LogLevel) (pending : List LogEntry) (sched : List Label),
        (run sched (initSys lvl pending)).cLoc = CLoc.writeRec →
          (run sched (initSys lvl pending)).lockHeld ≠ some Tid.consumer) ∧
    (∀ (s : Sys) (e : LogEntry) (rest : List LogEntry),
        s.cLoc = CLoc.innerCheck → s.queue = e :: rest →
          (step Label.con s).queue = rest ∧ (step Label.con s).held = some e ∧
          (step Label.con s).lockHeld = none ∧ (step Label.con s).cLoc = CLoc.writeRec) := by
  constructor
  · intro lvl pending sched hw
    exact (runInv lvl sched (initSys lvl pending) (initSysInv lvl pending)).2.2.2.2.2.2 hw
  · intro s e rest hc hq
    simp [step, conStep, hc, hq]

/-- Witness for claim C8 (amended), at the concrete two-record schedule of
the counterexample: while the consumer is writing the first record it does
not hold the mutex, and the pop step from the inner-loop check takes
exactly the front record, hands it to the write step and releases the
lock. -/
theorem claim_C8_witness :
    (run [Label.prod, Label.prod, Label.prod, Label.prod, Label.prod, Label.prod,
          Label.con, Label.con, Label.con, Label.con]
        (initSys LogLevel.DBUG
          [⟨LogLevel.INFO, "first", "a.cpp", "f", 1⟩,
           ⟨LogLevel.WARN, "second", "a.cpp", "f", 2⟩])).lockHeld ≠
      some Tid.consumer ∧
    ((step Label.con
        (run [Label.prod, Label.prod, Label.prod, Label.prod, Label.prod, Label.prod,
              Label.con, Label.con, Label.con]
            (initSys LogLevel.DBUG
              [⟨LogLevel.INFO, "first", "a.cpp", "f", 1⟩,
               ⟨LogLevel.WARN, "second", "a.cpp", "f", 2⟩]))).queue =
        [⟨LogLevel.WARN, "second", "a.cpp", "f", 2⟩] ∧
      (step Label.con
        (run [Label.prod, Label.prod, Label.prod, Label.prod, Label.prod, Label.prod,
              Label.con, Label.con, Label.con]
            (initSys LogLevel.DBUG
              [⟨LogLevel.INFO, "first", "a.cpp", "f", 1⟩,
               ⟨LogLevel.WARN, "second", "a.cpp", "f", 2⟩]))).held =
        some ⟨LogLevel.INFO, "first", "a.cpp", "f", 1⟩ ∧
      (step Label.con
        (run [Label.prod, Label.prod, Label.prod, Label.prod, Label.prod, Label.prod,
              Label.con, Label.con, Label.con]
            (initSys LogLevel.DBUG
              [⟨LogLevel.INFO, "first", "a.cpp", "f", 1⟩,
               ⟨LogLevel.WARN, "second", "a.cpp", "f", 2⟩]))).lockHeld = none ∧
      (step Label.con
        (run [Label.prod, Label.prod, Label.prod, Label.prod, Label.prod, Label.prod,
              Label.con, Label.con, Label.con]
            (initSys LogLevel.DBUG
              [⟨LogLevel.INFO, "first", "a.cpp", "f", 1⟩,
               ⟨LogLevel.WARN, "second", "a.cpp", "f", 2⟩]))).cLoc = CLoc.writeRec) :=
  ⟨claim_C8_amended.1 LogLevel.DBUG
      [⟨LogLevel.INFO, "first", "a.cpp", "f", 1⟩, ⟨LogLevel.WARN, "second", "a.cpp", "f", 2⟩]
      [Label.prod, Label.prod, Label.prod, Label.prod, Label.prod, Label.prod,
        Label.con, Label.con, Label.con, Label.con] (by decide),
    claim_C8_amended.2
      (run [Label.prod, Label.prod, Label.prod, Label.prod, Label.prod, Label.prod,
            Label.con, Label.con, Label.con]
          (initSys LogLevel.DBUG
            [⟨LogLevel.INFO, "first", "a.cpp", "f", 1⟩,
             ⟨LogLevel.WARN, "second", "a.cpp", "f", 2⟩]))
      ⟨LogLevel.INFO, "first", "a.cpp", "f", 1⟩
      [⟨LogLevel.WARN, "second", "a.cpp", "f", 2⟩] (by decide) (by decide)⟩
